import Mathlib

/-!
Verification of the pg-operator reconciliation and provisioning engine.

The Go sources contain two parallel implementations of the provisioning
pipeline:

* an inline one in `internal/controller/database_controller.go`
  (embedded below under the `Ctrl` namespace), and
* a service-based one in `pkg/postgres` (`UserService`, `DatabaseService`,
  `Client`), `pkg/k8s` (`SecretService`, `StatusService`) and the
  service-based reconciler in `internal/controller/postgresconnection_controller.go`
  (embedded below under the `UserSvc`, `SecretSvc`, `StatusSvc`, `PgClient`
  and `Svc` namespaces).

Machine state that the Go code reaches through interfaces (the SQL driver,
the Kubernetes API) is embedded explicitly: SQL statement execution is
recorded as a trace of attempted statement strings, with failure injection
by an environment of Boolean oracles; the Kubernetes secret store is an
association list from names to secret data; the secure random generator is
a stream `pw : Nat -> String` consumed one index per `generatePassword` /
`GenerateSecurePassword` call.
-/

/-- Permission tokens of `api/v1/database_types.go`; Go's `Permission` is a
string type, so unknown tokens are representable. -/
def PermissionConnect : String := "CONNECT"

def PermissionCreate : String := "CREATE"

def PermissionUsage : String := "USAGE"

def PermissionSelect : String := "SELECT"

def PermissionInsert : String := "INSERT"

def PermissionUpdate : String := "UPDATE"

def PermissionDelete : String := "DELETE"

def PermissionAll : String := "ALL"

/-- `DatabaseUser` of `api/v1/database_types.go`: role name, permission
tokens, optional create-secret flag (nil pointer = `none`), optional
explicit secret name (empty string = unset). -/
structure DatabaseUser where
  name : String
  permissions : List String
  createSecret : Option Bool
  secretName : String
  deriving Repr, DecidableEq

/-- `ConnectionReference` of `api/v1/database_types.go`. -/
structure ConnectionReference where
  name : String
  nsName : String
  deriving Repr, DecidableEq

/-- `DatabaseSpec` of `api/v1/database_types.go`. -/
structure DatabaseSpec where
  connectionRef : ConnectionReference
  databaseName : String
  users : List DatabaseUser
  owner : String
  encoding : String
  deriving Repr, DecidableEq

/-- `Database` resource: Kubernetes object metadata name/namespace plus the
spec. -/
structure Database where
  metaName : String
  nsName : String
  spec : DatabaseSpec
  deriving Repr, DecidableEq

/-- `SecretReference` of `api/v1/postgresconnection_types.go`. -/
structure SecretReference where
  name : String
  nsName : String
  deriving Repr, DecidableEq

/-- `PostGresConnectionSpec` of `api/v1/postgresconnection_types.go`. -/
structure PostGresConnectionSpec where
  clusterName : String
  clusterNamespace : String
  superUserSecret : Option SecretReference
  useAppSecret : Option Bool
  host : String
  port : Nat
  sslMode : String
  deriving Repr, DecidableEq

/-- `PostGresConnection` resource with its metadata name/namespace. -/
structure PostGresConnection where
  metaName : String
  nsName : String
  spec : PostGresConnectionSpec
  deriving Repr, DecidableEq

/-- Data of a credential secret: the two-key `{username, password}` map.
A key missing from the Go map reads as the empty string, which is how the
source observes it. -/
structure SecretData where
  username : String
  password : String
  deriving Repr, DecidableEq

/-- Secret store of one namespace: association list name -> data. -/
abbrev SecretStore := List (String × SecretData)

/-- Lookup of a secret by name in the store. -/
def storeFind (s : SecretStore) (n : String) : Option SecretData :=
  match s with
  | [] => none
  | (k, d) :: rest => if k = n then some d else storeFind rest n

/-- Failure-injection oracles for the SQL layer: `roleExists`/`dbExists`
are the catalog lookups, `queryFails` makes an existence check itself
error, `execFails` makes `ExecContext` of a given statement error. -/
structure DbEnv where
  roleExists : String → Bool
  queryFails : String → Bool
  execFails : String → Bool

/-- Failure-injection oracles for the Kubernetes API: `getFails` is an
infrastructure error on `Get` (distinct from not-found), `createFails` an
infrastructure error on `Create` (distinct from already-exists). -/
structure K8sEnv where
  getFails : String → Bool
  createFails : String → Bool

/-- Result of a grant step: the statements passed to `ExecContext` in
order (a statement is recorded when execution is attempted, whether or not
it fails) and the error returned, if any. -/
structure GrantOut where
  stmts : List String
  err : Option String
  deriving Repr, DecidableEq

namespace UserSvc

/-- Statement selected by the `switch permission` of
`UserService.GrantPermissions` (`pkg/postgres`, part_003 lines 63-93);
`none` is the `default` branch, which returns the unsupported-permission
error. -/
def grantQuery (databaseName userName perm : String) : Option String :=
  if perm = PermissionAll then
    some ("GRANT ALL PRIVILEGES ON DATABASE " ++ databaseName ++ " TO " ++ userName)
  else if perm = PermissionConnect then
    some ("GRANT CONNECT ON DATABASE " ++ databaseName ++ " TO " ++ userName)
  else if perm = PermissionCreate then
    some ("GRANT CREATE ON DATABASE " ++ databaseName ++ " TO " ++ userName)
  else if perm = PermissionUsage then
    some ("GRANT USAGE ON SCHEMA public TO " ++ userName)
  else if perm = PermissionSelect then
    some ("GRANT SELECT ON ALL TABLES IN SCHEMA public TO " ++ userName)
  else if perm = PermissionInsert then
    some ("GRANT INSERT ON ALL TABLES IN SCHEMA public TO " ++ userName)
  else if perm = PermissionUpdate then
    some ("GRANT UPDATE ON ALL TABLES IN SCHEMA public TO " ++ userName)
  else if perm = PermissionDelete then
    some ("GRANT DELETE ON ALL TABLES IN SCHEMA public TO " ++ userName)
  else
    none

/-- Loop body of `UserService.GrantPermissions` over the remaining
permission tokens. -/
def grantLoop (env : DbEnv) (databaseName userName : String) :
    List String → List String → GrantOut
  | [], issued => ⟨issued, none⟩
  | p :: ps, issued =>
    match grantQuery databaseName userName p with
    | none => ⟨issued, some ("unsupported permission: " ++ p)⟩
    | some q =>
      if env.execFails q then
        ⟨issued ++ [q], some ("failed to grant " ++ p ++ " permission")⟩
      else
        grantLoop env databaseName userName ps (issued ++ [q])

/-- `UserService.GrantPermissions` (`pkg/postgres`, part_003 lines 63-93). -/
def GrantPermissions (env : DbEnv) (databaseName : String) (user : DatabaseUser) : GrantOut :=
  grantLoop env databaseName user.name user.permissions []

end UserSvc

namespace Ctrl

/-- Statement selected by the `switch permission` of the inline
`DatabaseReconciler.grantPermissions` (`database_controller.go` lines
242-262). Only `CONNECT`, `CREATE` and `ALL` have cases; `none` is the
`default` branch, which is `continue` — the token is skipped silently. -/
def grantQuery (databaseName userName perm : String) : Option String :=
  if perm = PermissionConnect then
    some ("GRANT CONNECT ON DATABASE " ++ databaseName ++ " TO " ++ userName)
  else if perm = PermissionCreate then
    some ("GRANT CREATE ON DATABASE " ++ databaseName ++ " TO " ++ userName)
  else if perm = PermissionAll then
    some ("GRANT ALL PRIVILEGES ON DATABASE " ++ databaseName ++ " TO " ++ userName)
  else
    none

/-- Loop body of the inline `grantPermissions` over the remaining
permission tokens; an unmatched token falls to `default: continue`. -/
def grantLoop (env : DbEnv) (databaseName userName : String) :
    List String → List String → GrantOut
  | [], issued => ⟨issued, none⟩
  | p :: ps, issued =>
    match grantQuery databaseName userName p with
    | none => grantLoop env databaseName userName ps issued
    | some q =>
      if env.execFails q then
        ⟨issued ++ [q], some ("failed to grant permission " ++ p)⟩
      else
        grantLoop env databaseName userName ps (issued ++ [q])

/-- Inline `DatabaseReconciler.grantPermissions` (`database_controller.go`
lines 242-262). -/
def grantPermissions (env : DbEnv) (databaseName : String) (user : DatabaseUser) : GrantOut :=
  grantLoop env databaseName user.name user.permissions []

end Ctrl

/-- Single-quote character embedded by the Go `fmt.Sprintf` verbs
`PASSWORD '%s'` / `ENCODING '%s'` in the generated SQL statements. -/
def sqc : String := "\x27"

/-- Outcome of ensuring one role: the password-stream position after the
call, the statements attempted, and the error, if any. -/
structure UserStepOut where
  k : Nat
  stmts : List String
  err : Option String
  drawnIdx : Option Nat
  deriving Repr, DecidableEq

namespace UserSvc

/-- `UserService.EnsureUser` (part_003 lines 40-61): catalog lookup in
`pg_user`; when the role is absent, draw a fresh password from the stream
(one draw per `generatePassword` call) and issue `CREATE USER`. -/
def EnsureUser (env : DbEnv) (pw : Nat → String) (user : DatabaseUser) (k : Nat) : UserStepOut :=
  if env.queryFails user.name then
    ⟨k, [], some "failed to check if user exists", none⟩
  else if env.roleExists user.name then
    ⟨k, [], none, none⟩
  else
    let password := pw k
    let q := "CREATE USER " ++ user.name ++ " WITH ENCRYPTED PASSWORD " ++ sqc ++ password ++ sqc
    if env.execFails q then
      ⟨k + 1, [q], some "failed to create user", some k⟩
    else
      ⟨k + 1, [q], none, some k⟩

/-- Outcome of `UserService.EnsureUsers`. -/
structure EnsureUsersOut where
  usersCreated : List String
  k : Nat
  stmts : List String
  err : Option String
  rolePwIdxs : List Nat
  deriving Repr, DecidableEq

/-- `UserService.EnsureUsers` (part_003 lines 23-38). The Go loop appends
`user.Name` to `usersCreated` right after `EnsureUser` succeeds and BEFORE
`GrantPermissions` runs; the accumulator-append of the source produces the
same list as the cons-return form used here. -/
def EnsureUsers (env : DbEnv) (pw : Nat → String) (databaseName : String) :
    List DatabaseUser → Nat → EnsureUsersOut
  | [], k => ⟨[], k, [], none, []⟩
  | u :: us, k =>
    let r := EnsureUser env pw u k
    match r.err with
    | some e =>
      ⟨[], r.k, r.stmts, some ("failed to ensure user " ++ u.name ++ ": " ++ e),
        r.drawnIdx.toList⟩
    | none =>
      let g := GrantPermissions env databaseName u
      match g.err with
      | some e =>
        ⟨[u.name], r.k, r.stmts ++ g.stmts,
          some ("failed to grant permissions to user " ++ u.name ++ ": " ++ e),
          r.drawnIdx.toList⟩
      | none =>
        let rest := EnsureUsers env pw databaseName us r.k
        ⟨u.name :: rest.usersCreated, rest.k, r.stmts ++ g.stmts ++ rest.stmts, rest.err,
          r.drawnIdx.toList ++ rest.rolePwIdxs⟩

end UserSvc

namespace Ctrl

/-- Inline `DatabaseReconciler.ensureUser` (`database_controller.go` lines
218-240): catalog lookup in `pg_roles`; when absent, draw a fresh password
and issue `CREATE ROLE ... WITH LOGIN PASSWORD`. -/
def ensureUser (env : DbEnv) (pw : Nat → String) (user : DatabaseUser) (k : Nat) : UserStepOut :=
  if env.queryFails user.name then
    ⟨k, [], some "failed to check if user exists", none⟩
  else if env.roleExists user.name then
    ⟨k, [], none, none⟩
  else
    let password := pw k
    let q := "CREATE ROLE " ++ user.name ++ " WITH LOGIN PASSWORD " ++ sqc ++ password ++ sqc
    if env.execFails q then
      ⟨k + 1, [q], some "failed to create user", some k⟩
    else
      ⟨k + 1, [q], none, some k⟩

end Ctrl

/-- Outcome of a secret materialization: the store after the call, the
secret name the function computed, and the error, if any. -/
structure SecretOut where
  store : SecretStore
  nameUsed : String
  err : Option String
  deriving Repr, DecidableEq

namespace SecretSvc

/-- `SecretService.CreateUserSecret` (`pkg/k8s/secrets.go` lines 30-60):
the name defaults to `<resource metadata name>-<user>` (the Go expression
is `database.Name`, the object name, not `Spec.DatabaseName`); `Create` is
attempted directly and an `IsAlreadyExists` failure is treated as success,
leaving the stored secret untouched. `SetControllerReference` is the
owner-reference request and is modelled as succeeding. The name
computation (lines 31-34 of the Go function) is split out as
`secretNameFor`. -/
def secretNameFor (database : Database) (user : DatabaseUser) : String :=
  if user.secretName = "" then database.metaName ++ "-" ++ user.name else user.secretName

def CreateUserSecret (kenv : K8sEnv) (store : SecretStore) (database : Database)
    (user : DatabaseUser) (password : String) : SecretOut :=
  let secretName := secretNameFor database user
  if kenv.createFails secretName then
    ⟨store, secretName, some "failed to create secret"⟩
  else
    match storeFind store secretName with
    | some _ => ⟨store, secretName, none⟩
    | none => ⟨(secretName, ⟨user.name, password⟩) :: store, secretName, none⟩

end SecretSvc

namespace Ctrl

/-- Inline `DatabaseReconciler.createUserSecret` (`database_controller.go`
lines 264-310): the name defaults to `<Spec.DatabaseName>-<user>`; `Get`
first — if the secret exists the function returns nil without touching it;
only on not-found a fresh password is drawn and `Create` issued. Returns
the secret outcome and the password-stream position after the call. -/
def secretNameFor (database : Database) (user : DatabaseUser) : String :=
  if user.secretName = "" then database.spec.databaseName ++ "-" ++ user.name else user.secretName

def createUserSecret (kenv : K8sEnv) (store : SecretStore) (pw : Nat → String) (k : Nat)
    (database : Database) (user : DatabaseUser) : SecretOut × Nat :=
  let secretName := secretNameFor database user
  if kenv.getFails secretName then
    (⟨store, secretName, some "failed to get existing secret"⟩, k)
  else
    match storeFind store secretName with
    | some _ => (⟨store, secretName, none⟩, k)
    | none =>
      let password := pw k
      if kenv.createFails secretName then
        (⟨store, secretName, some "failed to create secret"⟩, k + 1)
      else
        (⟨(secretName, ⟨user.name, password⟩) :: store, secretName, none⟩, k + 1)

/-- State threaded through the inline per-user provisioning loop. -/
structure ProvState where
  k : Nat
  store : SecretStore
  stmts : List String
  deriving Repr, DecidableEq

/-- One iteration of the inline `ensureUsers` loop (`database_controller.go`
lines 197-213): ensure the role, grant its permissions, then (when the
create-secret flag is nil or true) materialize the secret. -/
def processUser (env : DbEnv) (kenv : K8sEnv) (pw : Nat → String) (database : Database)
    (u : DatabaseUser) (st : ProvState) : ProvState × Option String :=
  let r := ensureUser env pw u st.k
  match r.err with
  | some e =>
    (⟨r.k, st.store, st.stmts ++ r.stmts⟩, some ("failed to ensure user " ++ u.name ++ ": " ++ e))
  | none =>
    let g := grantPermissions env database.spec.databaseName u
    match g.err with
    | some e =>
      (⟨r.k, st.store, st.stmts ++ r.stmts ++ g.stmts⟩,
        some ("failed to grant permissions to user " ++ u.name ++ ": " ++ e))
    | none =>
      if u.createSecret.getD true then
        let (s, k2) := createUserSecret kenv st.store pw r.k database u
        match s.err with
        | some e =>
          (⟨k2, s.store, st.stmts ++ r.stmts ++ g.stmts⟩,
            some ("failed to create secret for user " ++ u.name ++ ": " ++ e))
        | none => (⟨k2, s.store, st.stmts ++ r.stmts ++ g.stmts⟩, none)
      else
        (⟨r.k, st.store, st.stmts ++ r.stmts ++ g.stmts⟩, none)

/-- Outcome of the inline `ensureUsers`. -/
structure EnsureOut where
  usersCreated : List String
  st : ProvState
  err : Option String
  deriving Repr, DecidableEq

/-- Loop of the inline `DatabaseReconciler.ensureUsers`
(`database_controller.go` lines 194-216): `usersCreated` gains `u.Name`
only after the whole iteration for `u` (role, grants, secret) succeeded;
the source appends to an accumulator, which yields the same list as this
cons-return form. -/
def ensureUsersLoop (env : DbEnv) (kenv : K8sEnv) (pw : Nat → String) (database : Database) :
    List DatabaseUser → ProvState → EnsureOut
  | [], st => ⟨[], st, none⟩
  | u :: us, st =>
    match processUser env kenv pw database u st with
    | (st', some e) => ⟨[], st', some e⟩
    | (st', none) =>
      let r := ensureUsersLoop env kenv pw database us st'
      ⟨u.name :: r.usersCreated, r.st, r.err⟩

/-- Inline `DatabaseReconciler.ensureUsers` over the declared user list. -/
def ensureUsers (env : DbEnv) (kenv : K8sEnv) (pw : Nat → String) (database : Database)
    (st : ProvState) : EnsureOut :=
  ensureUsersLoop env kenv pw database database.spec.users st

end Ctrl

namespace Svc

/-- Outcome of the secret pass: final stream position, store, error, and
the stream indices of the passwords drawn for secrets. -/
structure SecretLoopOut where
  k : Nat
  store : SecretStore
  err : Option String
  idxs : List Nat
  deriving Repr, DecidableEq

/-- Secret pass of the service-based `DatabaseReconciler.ensureUsers`
(`postgresconnection_controller.go` lines 205-216): runs AFTER the whole
`UserService.EnsureUsers` loop, drawing one fresh password per user via
`utils.GenerateSecurePassword`. -/
def secretLoop (kenv : K8sEnv) (pw : Nat → String) (database : Database) :
    List DatabaseUser → Nat → SecretStore → SecretLoopOut
  | [], k, store => ⟨k, store, none, []⟩
  | u :: us, k, store =>
    if u.createSecret.getD true then
      let password := pw k
      let s := SecretSvc.CreateUserSecret kenv store database u password
      match s.err with
      | some e =>
        ⟨k + 1, s.store, some ("failed to create secret for user " ++ u.name ++ ": " ++ e), [k]⟩
      | none =>
        let rest := secretLoop kenv pw database us (k + 1) s.store
        ⟨rest.k, rest.store, rest.err, k :: rest.idxs⟩
    else
      secretLoop kenv pw database us k store

/-- Outcome of the service-based `ensureUsers`. -/
structure EnsureOut where
  usersCreated : List String
  k : Nat
  store : SecretStore
  stmts : List String
  err : Option String
  rolePwIdxs : List Nat
  secretPwIdxs : List Nat
  deriving Repr, DecidableEq

/-- Service-based `DatabaseReconciler.ensureUsers`
(`postgresconnection_controller.go` lines 199-219): first the whole
`UserService.EnsureUsers` pass, then the secret pass over the same user
list. -/
def ensureUsers (env : DbEnv) (kenv : K8sEnv) (pw : Nat → String) (database : Database)
    (store : SecretStore) : EnsureOut :=
  let r := UserSvc.EnsureUsers env pw database.spec.databaseName database.spec.users 0
  match r.err with
  | some e => ⟨r.usersCreated, r.k, store, r.stmts, some e, r.rolePwIdxs, []⟩
  | none =>
    let sl := secretLoop kenv pw database database.spec.users r.k store
    ⟨r.usersCreated, sl.k, sl.store, r.stmts, sl.err, r.rolePwIdxs, sl.idxs⟩

end Svc

/-- Condition attached to a resource status: type, boolean state
(`metav1.ConditionTrue`/`False`), reason, message. Timestamps are not
modelled. -/
structure Condition where
  condType : String
  status : Bool
  reason : String
  message : String
  deriving Repr, DecidableEq

/-- `DatabaseStatus` of `api/v1/database_types.go`. -/
structure DatabaseStatus where
  ready : Bool
  databaseCreated : Bool
  usersCreated : List String
  message : String
  conditions : List Condition
  deriving Repr, DecidableEq

/-- `ctrl.Result`: the `Requeue` flag and `RequeueAfter` in minutes (the
source only ever uses whole minutes). -/
structure CtrlResult where
  requeue : Bool
  requeueAfterMin : Nat
  deriving Repr, DecidableEq

/-- Zero value `ctrl.Result{}`: no requeue. -/
def emptyResult : CtrlResult := ⟨false, 0⟩

/-- `meta.SetStatusCondition`: upsert by condition type — replace the
condition of the same type if present, else append. -/
def setStatusCondition (conds : List Condition) (c : Condition) : List Condition :=
  if conds.any (fun x => x.condType = c.condType) then
    conds.map (fun x => if x.condType = c.condType then c else x)
  else
    conds ++ [c]

namespace Ctrl

/-- Inline `DatabaseReconciler.updateStatus` (`database_controller.go`
lines 312-344): sets the status fields, REPLACES the conditions list with
the single `Ready` condition, then writes; a write failure returns
`ctrl.Result{}` with the error; otherwise `RequeueAfter` is 5 minutes,
overridden to 1 minute when not ready. -/
def updateStatus (_st : DatabaseStatus) (ready databaseCreated : Bool)
    (usersCreated : List String) (message : String) (writeFails : Bool) :
    DatabaseStatus × CtrlResult × Option String :=
  let cond : Condition :=
    ⟨"Ready", ready, "DatabaseReconciled", message⟩
  let st2 : DatabaseStatus :=
    ⟨ready, databaseCreated, usersCreated, message, [cond]⟩
  if writeFails then
    (st2, emptyResult, some "failed to update status")
  else
    (st2, ⟨false, if ready then 5 else 1⟩, none)

end Ctrl

namespace StatusSvc

/-- `StatusService.UpdateDatabaseStatus` (`pkg/k8s`, part_004 lines
25-56): sets the status fields, upserts the `Ready` condition, writes;
a write failure returns `ctrl.Result{}` with the error; otherwise a
not-ready outcome requeues after 1 minute and a ready outcome returns
`ctrl.Result{}` — no requeue. -/
def UpdateDatabaseStatus (st : DatabaseStatus) (ready databaseCreated : Bool)
    (usersCreated : List String) (message : String) (writeFails : Bool) :
    DatabaseStatus × CtrlResult × Option String :=
  let cond : Condition :=
    if ready then ⟨"Ready", true, "Ready", "Database and users are ready"⟩
    else ⟨"Ready", false, "Reconciling", message⟩
  let st2 : DatabaseStatus :=
    ⟨ready, databaseCreated, usersCreated, message, setStatusCondition st.conditions cond⟩
  if writeFails then
    (st2, emptyResult, some "status update failed")
  else if !ready then
    (st2, ⟨false, 1⟩, none)
  else
    (st2, emptyResult, none)

end StatusSvc

/-- Kubernetes API error classes distinguished by
`utils.HandleReconcileError`. -/
inductive K8sErr where
  | notFound
  | conflict
  | other (msg : String)
  deriving Repr, DecidableEq

/-- `utils.HandleReconcileError` (`api/v1/database_types.go` merged file,
lines 614-631): nil and not-found answer with an empty result and nil
error; a conflict answers with `Requeue: true` and nil error; anything
else is escalated. -/
def HandleReconcileError : Option K8sErr → CtrlResult × Option String
  | none => (emptyResult, none)
  | some .notFound => (emptyResult, none)
  | some .conflict => (⟨true, 0⟩, none)
  | some (.other m) => (emptyResult, some ("wrapped: " ++ m))

/-- Outcome of the initial `r.Get` of the reconciled resource. -/
inductive FetchOutcome where
  | found
  | notFound
  | fetchError (msg : String)
  deriving Repr, DecidableEq

/-- Sub-step outcomes feeding the inline `Reconcile` control flow
(`database_controller.go` lines 54-93). Each field is the result the
corresponding helper call returns; the helpers themselves are embedded
separately above, and `Reconcile` is verified as the orchestration over
their outcomes. -/
structure ReconcileEnv where
  fetchDatabase : FetchOutcome
  getConnection : Option String
  connReady : Bool
  connect : Option String
  ensureDbErr : Option String
  ensureDbCreated : Bool
  ensureUsersList : List String
  ensureUsersErr : Option String
  statusWriteFails : Bool
  deriving Repr, DecidableEq

/-- Observable actions of one reconciliation, in order. -/
inductive Step where
  | getConnectionStep
  | connectStep
  | ensureDatabaseStep
  | ensureUsersStep
  | statusWriteStep
  deriving Repr, DecidableEq

/-- Outcome of one reconciliation: returned result and error, the trace of
actions taken after the initial `Get`, and the status left on the
resource. -/
structure ReconcileOut where
  res : CtrlResult
  err : Option String
  trace : List Step
  status : DatabaseStatus
  deriving Repr, DecidableEq

namespace Ctrl

/-- One business failure converted to a status write, shared shape of the
error arms of `Reconcile`. -/
def failWith (env : ReconcileEnv) (st : DatabaseStatus) (databaseCreated : Bool)
    (usersCreated : List String) (message : String) (trace : List Step) : ReconcileOut :=
  match updateStatus st false databaseCreated usersCreated message env.statusWriteFails with
  | (st2, res, err) => ⟨res, err, trace ++ [.statusWriteStep], st2⟩

/-- Inline `DatabaseReconciler.Reconcile` (`database_controller.go` lines
54-93): not-found on the initial get returns the zero result and nil
error with no further action; any business failure becomes a not-ready
status write; all steps succeeding becomes a ready status write. -/
def Reconcile (env : ReconcileEnv) (st : DatabaseStatus) : ReconcileOut :=
  match env.fetchDatabase with
  | .fetchError m => ⟨emptyResult, some m, [], st⟩
  | .notFound => ⟨emptyResult, none, [], st⟩
  | .found =>
    match env.getConnection with
    | some e => failWith env st false [] e [.getConnectionStep]
    | none =>
      if !env.connReady then
        failWith env st false [] "PostgreSQL connection is not ready"
          [.getConnectionStep]
      else
        match env.connect with
        | some e =>
          failWith env st false [] ("Failed to connect to database: " ++ e)
            [.getConnectionStep, .connectStep]
        | none =>
          match env.ensureDbErr with
          | some e =>
            failWith env st false [] ("Failed to ensure database: " ++ e)
              [.getConnectionStep, .connectStep, .ensureDatabaseStep]
          | none =>
            match env.ensureUsersErr with
            | some e =>
              failWith env st env.ensureDbCreated env.ensureUsersList
                ("Failed to ensure users: " ++ e)
                [.getConnectionStep, .connectStep, .ensureDatabaseStep, .ensureUsersStep]
            | none =>
              match updateStatus st true env.ensureDbCreated env.ensureUsersList
                  "Database and users ready" env.statusWriteFails with
              | (st2, res, err) =>
                ⟨res, err,
                  [.getConnectionStep, .connectStep, .ensureDatabaseStep, .ensureUsersStep,
                    .statusWriteStep], st2⟩

/-- A reconciliation in which some business-level step failed: connection
lookup, connection not ready, database connect, ensure-database, or
ensure-users. -/
def businessFails (env : ReconcileEnv) : Bool :=
  env.getConnection.isSome || !env.connReady || env.connect.isSome ||
    env.ensureDbErr.isSome || env.ensureUsersErr.isSome

end Ctrl

/-- Namespaced secret store of the whole cluster: association list from
(namespace, name) to data. -/
abbrev K8sSecrets := List ((String × String) × SecretData)

/-- Lookup by (namespace, name). -/
def clusterFind (s : K8sSecrets) (key : String × String) : Option SecretData :=
  match s with
  | [] => none
  | (k, d) :: rest => if k = key then some d else clusterFind rest key

namespace PgClient

/-- Secret key selection of `Client.getCredentials` (`pkg/postgres`,
part_002 lines 155-169): the explicit `SuperUserSecret` reference when
set (namespace defaulting to the connection's); otherwise the name is
always `<clusterName>-superuser` in the cluster namespace (defaulting to
the connection's namespace). No field other than `SuperUserSecret`,
`ClusterName` and `ClusterNamespace` is consulted — in particular
`UseAppSecret` is not read. Returns (namespace, name). -/
def credentialsSecretKey (pgConn : PostGresConnection) : String × String :=
  match pgConn.spec.superUserSecret with
  | some ref =>
    (if ref.nsName = "" then pgConn.nsName else ref.nsName, ref.name)
  | none =>
    (if pgConn.spec.clusterNamespace = "" then pgConn.nsName else pgConn.spec.clusterNamespace,
      pgConn.spec.clusterName ++ "-superuser")

/-- `Client.getCredentials` (`pkg/postgres`, part_002 lines 154-189):
fetch the selected secret; fail if the fetch fails or if the username or
password entry is empty/missing. -/
def getCredentials (secrets : K8sSecrets) (pgConn : PostGresConnection) :
    Except String (String × String) :=
  let key := credentialsSecretKey pgConn
  match clusterFind secrets key with
  | none => .error "failed to get secret"
  | some d =>
    if d.username = "" || d.password = "" then
      .error "secret is missing username or password"
    else
      .ok (d.username, d.password)

end PgClient

/-- Failure-free SQL environment: no role exists, no lookup or execution
fails. -/
def noFailDb : DbEnv := ⟨fun _ => false, fun _ => false, fun _ => false⟩

/-- Failure-free Kubernetes environment. -/
def noFailK8s : K8sEnv := ⟨fun _ => false, fun _ => false⟩

/-- Empty starting status. -/
def st0 : DatabaseStatus := ⟨false, false, [], "", []⟩

/-- C2: the claim reads `ready == true` requeues after exactly 5 minutes
and `ready == false` after 1 minute. This holds for the inline
`updateStatus` of `database_controller.go`; the service
`StatusService.UpdateDatabaseStatus` instead returns the zero result (no
requeue) on success and 1 minute on failure. This theorem proves the
amended statement covering both implementations. -/
theorem c2_requeue_policy (st : DatabaseStatus) (ready dbc : Bool)
    (users : List String) (msg : String) :
    (Ctrl.updateStatus st ready dbc users msg false).2.1 = ⟨false, if ready then 5 else 1⟩ ∧
    (StatusSvc.UpdateDatabaseStatus st ready dbc users msg false).2.1
      = (if ready then emptyResult else ⟨false, 1⟩) := by
  constructor
  · simp [Ctrl.updateStatus]
  · cases ready <;> simp [StatusSvc.UpdateDatabaseStatus, emptyResult]

/-- C2 counterexample: a successful status update through
`StatusService.UpdateDatabaseStatus` yields the zero result, whose
requeue delay is 0, not the claimed 5 minutes. -/
theorem c2_requeue_counterexample :
    (StatusSvc.UpdateDatabaseStatus st0 true true ["u"] "ok" false).2.1 = emptyResult ∧
    emptyResult.requeueAfterMin ≠ 5 := by
  decide

/-- C3: the claim reads the defaulted secret name is
`<databaseName>-<roleName>`. The inline `createUserSecret` of
`database_controller.go` uses `Spec.DatabaseName`, but
`SecretService.CreateUserSecret` uses the resource's metadata name
(`database.Name`). This theorem proves the amended statement giving each
implementation's naming; the explicit name wins in both whenever it is
non-empty. -/
theorem c3_secret_name (kenv : K8sEnv) (store : SecretStore) (db : Database)
    (user : DatabaseUser) (password : String) (pw : Nat → String) (k : Nat) :
    (SecretSvc.CreateUserSecret kenv store db user password).nameUsed
      = (if user.secretName = "" then db.metaName ++ "-" ++ user.name else user.secretName) ∧
    (Ctrl.createUserSecret kenv store pw k db user).1.nameUsed
      = (if user.secretName = "" then db.spec.databaseName ++ "-" ++ user.name
          else user.secretName) := by
  constructor
  · unfold SecretSvc.CreateUserSecret SecretSvc.secretNameFor
    dsimp only
    repeat' split
    all_goals rfl
  · unfold Ctrl.createUserSecret Ctrl.secretNameFor
    dsimp only
    repeat' split
    all_goals rfl

/-- C3 counterexample: for a `Database` whose metadata name is
`test-resource` and declared database name is `testdb`, the service
materializer names the secret `test-resource-appuser`, not the
`testdb-appuser` the claim requires. -/
theorem c3_secret_name_counterexample :
    (SecretSvc.CreateUserSecret noFailK8s []
        ⟨"test-resource", "default", ⟨⟨"conn", ""⟩, "testdb", [], "", ""⟩⟩
        ⟨"appuser", ["CONNECT"], none, ""⟩ "pw").nameUsed = "test-resource-appuser" ∧
    ("test-resource-appuser" : String) ≠ "testdb" ++ "-" ++ "appuser" := by
  decide

/-- C4: the claim reads the defaulted credential-secret name depends on
the `useAppSecret` flag. In the source, `Client.getCredentials` never
consults the flag: with no explicit secret reference the name is always
`<cluster>-superuser`. Evaluated at the failing input (cluster
`test-cluster`, flag set true), the selected key equals the one with the
flag false and is never `test-cluster-app`, contradicting the field's own
documentation and the repository's tests. -/
theorem c4_use_app_secret_ignored :
    PgClient.credentialsSecretKey
        ⟨"conn", "default", ⟨"test-cluster", "", none, some true, "", 0, ""⟩⟩
      = ("default", "test-cluster-superuser") ∧
    PgClient.credentialsSecretKey
        ⟨"conn", "default", ⟨"test-cluster", "", none, some false, "", 0, ""⟩⟩
      = ("default", "test-cluster-superuser") ∧
    ("test-cluster-superuser" : String) ≠ "test-cluster-app" := by
  decide

/-- C7: a role whose permission list is exactly `[ALL]` makes both grant
implementations attempt exactly one statement, the whole-database
`GRANT ALL PRIVILEGES`, and no per-table statements. -/
theorem c7_all_single_grant (env : DbEnv) (dbn uname : String) (cs : Option Bool) (sn : String) :
    (UserSvc.GrantPermissions env dbn ⟨uname, [PermissionAll], cs, sn⟩).stmts
      = ["GRANT ALL PRIVILEGES ON DATABASE " ++ dbn ++ " TO " ++ uname] ∧
    (Ctrl.grantPermissions env dbn ⟨uname, [PermissionAll], cs, sn⟩).stmts
      = ["GRANT ALL PRIVILEGES ON DATABASE " ++ dbn ++ " TO " ++ uname] := by
  constructor
  · unfold UserSvc.GrantPermissions UserSvc.grantLoop
    simp [UserSvc.grantQuery, PermissionAll]
    split <;> simp [UserSvc.grantLoop]
  · unfold Ctrl.grantPermissions Ctrl.grantLoop
    simp [Ctrl.grantQuery, PermissionAll, PermissionConnect, PermissionCreate]
    split <;> simp [Ctrl.grantLoop]

/-- C10: a reconcile request whose initial get reports not-found returns
the zero result and nil error and takes no further action (no connection,
no secret, no status write); `HandleReconcileError` maps not-found the
same way. -/
theorem c10_not_found_noop (env : ReconcileEnv) (st : DatabaseStatus)
    (h : env.fetchDatabase = .notFound) :
    Ctrl.Reconcile env st = ⟨emptyResult, none, [], st⟩ ∧
    HandleReconcileError (some .notFound) = (emptyResult, none) := by
  constructor
  · unfold Ctrl.Reconcile
    rw [h]
  · rfl

/-- C10 witness: the not-found outcome evaluated concretely. -/
theorem c10_not_found_noop_witness :
    (⟨.notFound, none, true, none, none, true, [], none, false⟩ : ReconcileEnv).fetchDatabase
        = .notFound ∧
    (Ctrl.Reconcile ⟨.notFound, none, true, none, none, true, [], none, false⟩ st0
        = ⟨emptyResult, none, [], st0⟩ ∧
      HandleReconcileError (some .notFound) = (emptyResult, none)) :=
  ⟨rfl, c10_not_found_noop ⟨.notFound, none, true, none, none, true, [], none, false⟩ st0 rfl⟩

/-- With no execution failures, the service grant loop on a list holding
an unsupported token errors, and its attempted statements are exactly the
translations of the supported tokens before the first unsupported one. -/
theorem svcGrantLoop_unsupported (env : DbEnv) (dbn un : String)
    (hex : ∀ q, env.execFails q = false) :
    ∀ (ps issued : List String),
      (∃ p ∈ ps, UserSvc.grantQuery dbn un p = none) →
      (UserSvc.grantLoop env dbn un ps issued).err ≠ none ∧
      (UserSvc.grantLoop env dbn un ps issued).stmts
        = issued ++ (ps.takeWhile fun p => (UserSvc.grantQuery dbn un p).isSome).filterMap
            (fun p => UserSvc.grantQuery dbn un p) := by
  intro ps
  induction ps with
  | nil =>
    intro issued h
    simp at h
  | cons p ps ih =>
    intro issued hbad
    cases hq : UserSvc.grantQuery dbn un p with
    | none =>
      refine ⟨?_, ?_⟩
      · simp [UserSvc.grantLoop, hq]
      · simp [UserSvc.grantLoop, hq, List.takeWhile_cons]
    | some q =>
      have hb2 : ∃ p2 ∈ ps, UserSvc.grantQuery dbn un p2 = none := by
        rcases hbad with ⟨p2, hp2, hn⟩
        rcases List.mem_cons.mp hp2 with h1 | h2
        · subst h1
          rw [hq] at hn
          cases hn
        · exact ⟨p2, h2, hn⟩
      have hrec := ih (issued ++ [q]) hb2
      refine ⟨?_, ?_⟩
      · simpa [UserSvc.grantLoop, hq, hex q] using hrec.1
      · have h2 := hrec.2
        simp [UserSvc.grantLoop, hq, hex q, List.takeWhile_cons, List.filterMap_cons] at h2 ⊢
        simp [h2]

/-- With no execution failures the inline grant loop never errors: every
unmatched token falls to `continue`. -/
theorem ctrlGrantLoop_no_err (env : DbEnv) (dbn un : String)
    (hex : ∀ q, env.execFails q = false) :
    ∀ (ps issued : List String), (Ctrl.grantLoop env dbn un ps issued).err = none := by
  intro ps
  induction ps with
  | nil => intro issued; rfl
  | cons p ps ih =>
    intro issued
    cases hq : Ctrl.grantQuery dbn un p with
    | none => simpa [Ctrl.grantLoop, hq] using ih issued
    | some q => simpa [Ctrl.grantLoop, hq, hex q] using ih (issued ++ [q])

/-- C5: the claim reads any grant step errors on an out-of-enum token with
no silent skip. That holds for `UserService.GrantPermissions` — proved
here, together with the absence of rollback: the statements attempted are
exactly those of the tokens preceding the first unsupported one — but the
inline `grantPermissions` of `database_controller.go` instead skips the
token silently (`default: continue`) and returns no error, which is the
amendment's third conjunct. -/
theorem c5_unsupported_permission (env : DbEnv) (dbn : String) (user : DatabaseUser)
    (hex : ∀ q, env.execFails q = false)
    (hbad : ∃ p ∈ user.permissions, UserSvc.grantQuery dbn user.name p = none) :
    (UserSvc.GrantPermissions env dbn user).err ≠ none ∧
    (UserSvc.GrantPermissions env dbn user).stmts
      = (user.permissions.takeWhile
          fun p => (UserSvc.grantQuery dbn user.name p).isSome).filterMap
          (fun p => UserSvc.grantQuery dbn user.name p) ∧
    (Ctrl.grantPermissions env dbn user).err = none := by
  have h1 := svcGrantLoop_unsupported env dbn user.name hex user.permissions [] hbad
  refine ⟨h1.1, ?_, ?_⟩
  · simpa [UserSvc.GrantPermissions] using h1.2
  · exact ctrlGrantLoop_no_err env dbn user.name hex user.permissions []

/-- C5 witness: permission list `[CONNECT, BOGUS]` against a failure-free
environment. -/
theorem c5_unsupported_permission_witness :
    ((∀ q, noFailDb.execFails q = false) ∧
      ∃ p ∈ ["CONNECT", "BOGUS"],
        UserSvc.grantQuery "appdb" "u" p = none) ∧
    ((UserSvc.GrantPermissions noFailDb "appdb" ⟨"u", ["CONNECT", "BOGUS"], none, ""⟩).err ≠ none ∧
      (UserSvc.GrantPermissions noFailDb "appdb" ⟨"u", ["CONNECT", "BOGUS"], none, ""⟩).stmts
        = ((["CONNECT", "BOGUS"] : List String).takeWhile
            fun p => (UserSvc.grantQuery "appdb" "u" p).isSome).filterMap
            (fun p => UserSvc.grantQuery "appdb" "u" p) ∧
      (Ctrl.grantPermissions noFailDb "appdb" ⟨"u", ["CONNECT", "BOGUS"], none, ""⟩).err = none) :=
  ⟨⟨fun _ => rfl, by decide⟩,
    c5_unsupported_permission noFailDb "appdb" ⟨"u", ["CONNECT", "BOGUS"], none, ""⟩
      (fun _ => rfl) (by decide)⟩

/-- C5 counterexample: the inline grant step given the out-of-enum token
`SUPERPOWER` returns no error and attempts no statement — the token is
skipped silently, so the claim is false of this grant step. -/
theorem c5_silent_skip_counterexample :
    Ctrl.grantPermissions noFailDb "appdb" ⟨"u", ["SUPERPOWER"], none, ""⟩ = ⟨[], none⟩ := by
  decide

/-- C6: materializing a secret whose name already exists succeeds without
touching the store in either implementation (no overwrite, no rotation);
in the service materializer the only surfaced failure is a genuine create
failure — an already-exists outcome is mapped to success. -/
theorem c6_secret_idempotent (kenv : K8sEnv) (store : SecretStore) (db : Database)
    (user : DatabaseUser) (password : String) (pw : Nat → String) (k : Nat) (d d2 : SecretData)
    (hsvc : storeFind store (SecretSvc.secretNameFor db user) = some d)
    (hctrl : storeFind store (Ctrl.secretNameFor db user) = some d2)
    (hget : kenv.getFails (Ctrl.secretNameFor db user) = false) :
    (SecretSvc.CreateUserSecret kenv store db user password).store = store ∧
    (SecretSvc.CreateUserSecret kenv store db user password).err.isSome
      = kenv.createFails (SecretSvc.secretNameFor db user) ∧
    (Ctrl.createUserSecret kenv store pw k db user).1.store = store ∧
    (Ctrl.createUserSecret kenv store pw k db user).1.err = none := by
  refine ⟨?_, ?_, ?_, ?_⟩
  · unfold SecretSvc.CreateUserSecret
    dsimp only
    split
    · rfl
    · simp [hsvc]
  · unfold SecretSvc.CreateUserSecret
    dsimp only
    split
    next hc => simp [hc]
    next hc =>
      simp only [Bool.not_eq_true] at hc
      simp [hsvc, hc]
  · unfold Ctrl.createUserSecret
    dsimp only
    rw [hget]
    simp [hctrl]
  · unfold Ctrl.createUserSecret
    dsimp only
    rw [hget]
    simp [hctrl]

/-- C6 witness: an explicitly named secret `creds` already present in the
store, evaluated through both materializers. -/
theorem c6_secret_idempotent_witness :
    (storeFind [("creds", (⟨"u", "p"⟩ : SecretData))]
        (SecretSvc.secretNameFor ⟨"res", "default", ⟨⟨"c", ""⟩, "appdb", [], "", ""⟩⟩
          ⟨"u", [], none, "creds"⟩) = some ⟨"u", "p"⟩ ∧
      storeFind [("creds", (⟨"u", "p"⟩ : SecretData))]
        (Ctrl.secretNameFor ⟨"res", "default", ⟨⟨"c", ""⟩, "appdb", [], "", ""⟩⟩
          ⟨"u", [], none, "creds"⟩) = some ⟨"u", "p"⟩ ∧
      noFailK8s.getFails
        (Ctrl.secretNameFor ⟨"res", "default", ⟨⟨"c", ""⟩, "appdb", [], "", ""⟩⟩
          ⟨"u", [], none, "creds"⟩) = false) ∧
    ((SecretSvc.CreateUserSecret noFailK8s [("creds", ⟨"u", "p"⟩)]
        ⟨"res", "default", ⟨⟨"c", ""⟩, "appdb", [], "", ""⟩⟩
        ⟨"u", [], none, "creds"⟩ "pw").store = [("creds", ⟨"u", "p"⟩)] ∧
      (SecretSvc.CreateUserSecret noFailK8s [("creds", ⟨"u", "p"⟩)]
        ⟨"res", "default", ⟨⟨"c", ""⟩, "appdb", [], "", ""⟩⟩
        ⟨"u", [], none, "creds"⟩ "pw").err.isSome
        = noFailK8s.createFails
            (SecretSvc.secretNameFor ⟨"res", "default", ⟨⟨"c", ""⟩, "appdb", [], "", ""⟩⟩
              ⟨"u", [], none, "creds"⟩) ∧
      (Ctrl.createUserSecret noFailK8s [("creds", ⟨"u", "p"⟩)] (fun _ => "x") 0
        ⟨"res", "default", ⟨⟨"c", ""⟩, "appdb", [], "", ""⟩⟩
        ⟨"u", [], none, "creds"⟩).1.store = [("creds", ⟨"u", "p"⟩)] ∧
      (Ctrl.createUserSecret noFailK8s [("creds", ⟨"u", "p"⟩)] (fun _ => "x") 0
        ⟨"res", "default", ⟨⟨"c", ""⟩, "appdb", [], "", ""⟩⟩
        ⟨"u", [], none, "creds"⟩).1.err = none) :=
  ⟨⟨by decide, by decide, rfl⟩,
    c6_secret_idempotent noFailK8s [("creds", ⟨"u", "p"⟩)]
      ⟨"res", "default", ⟨⟨"c", ""⟩, "appdb", [], "", ""⟩⟩
      ⟨"u", [], none, "creds"⟩ "pw" (fun _ => "x") 0 ⟨"u", "p"⟩ ⟨"u", "p"⟩
      (by decide) (by decide) rfl⟩

/-- C8: for a found resource whose reconciliation hits a business-level
failure (connection lookup, connection not ready, connect, ensure
database, or ensure users), `Reconcile` answers through a status write —
the returned error is non-nil exactly when the status write itself fails,
the returned result is the fast 1-minute requeue when the write succeeds
(and the zero result when it fails), and the last action taken is the
status write. -/
theorem c8_failure_to_status (env : ReconcileEnv) (st : DatabaseStatus)
    (hf : env.fetchDatabase = .found)
    (hb : Ctrl.businessFails env = true) :
    (Ctrl.Reconcile env st).err.isSome = env.statusWriteFails ∧
    (Ctrl.Reconcile env st).res
      = (if env.statusWriteFails then emptyResult else ⟨false, 1⟩) ∧
    (Ctrl.Reconcile env st).trace.getLast? = some .statusWriteStep := by
  rcases env with ⟨f, gc, cr, cn, edb, edbc, eul, eue, swf⟩
  cases hf
  cases gc <;> cases cn <;> cases edb <;> cases eue <;> cases cr <;> cases swf <;>
    simp_all [Ctrl.Reconcile, Ctrl.failWith, Ctrl.updateStatus, Ctrl.businessFails, emptyResult]

/-- C8 witness: a failed connection lookup with a succeeding status
write. -/
theorem c8_failure_to_status_witness :
    ((⟨.found, some "conn missing", true, none, none, false, [], none, false⟩
        : ReconcileEnv).fetchDatabase = .found ∧
      Ctrl.businessFails
        ⟨.found, some "conn missing", true, none, none, false, [], none, false⟩ = true) ∧
    ((Ctrl.Reconcile ⟨.found, some "conn missing", true, none, none, false, [], none, false⟩
        st0).err.isSome
        = (⟨.found, some "conn missing", true, none, none, false, [], none, false⟩
            : ReconcileEnv).statusWriteFails ∧
      (Ctrl.Reconcile ⟨.found, some "conn missing", true, none, none, false, [], none, false⟩
        st0).res
        = (if (⟨.found, some "conn missing", true, none, none, false, [], none, false⟩
              : ReconcileEnv).statusWriteFails then emptyResult else ⟨false, 1⟩) ∧
      (Ctrl.Reconcile ⟨.found, some "conn missing", true, none, none, false, [], none, false⟩
        st0).trace.getLast? = some .statusWriteStep) :=
  ⟨⟨rfl, rfl⟩,
    c8_failure_to_status
      ⟨.found, some "conn missing", true, none, none, false, [], none, false⟩ st0 rfl rfl⟩

/-- In the inline provisioning loop a failure run returns a list that is
exactly the names of a proper prefix of the user list — the users fully
completed before the failing one — and, when names are distinct, the
failing user's name is not in it. -/
theorem ctrlEnsureUsersLoop_stops (env : DbEnv) (kenv : K8sEnv) (pw : Nat → String)
    (db : Database) :
    ∀ (us : List DatabaseUser) (st : Ctrl.ProvState) (e : String),
      (us.map DatabaseUser.name).Nodup →
      (Ctrl.ensureUsersLoop env kenv pw db us st).err = some e →
      ∃ pre u post, us = pre ++ u :: post ∧
        (Ctrl.ensureUsersLoop env kenv pw db us st).usersCreated = pre.map DatabaseUser.name ∧
        u.name ∉ (Ctrl.ensureUsersLoop env kenv pw db us st).usersCreated := by
  intro us
  induction us with
  | nil =>
    intro st e _ hfail
    simp [Ctrl.ensureUsersLoop] at hfail
  | cons u us ih =>
    intro st e hnd hfail
    rcases hstep : Ctrl.processUser env kenv pw db u st with ⟨st2, oerr⟩
    cases oerr with
    | some e2 =>
      refine ⟨[], u, us, rfl, ?_, ?_⟩
      · simp [Ctrl.ensureUsersLoop, hstep]
      · simp [Ctrl.ensureUsersLoop, hstep]
    | none =>
      have hunf : Ctrl.ensureUsersLoop env kenv pw db (u :: us) st
          = ⟨u.name :: (Ctrl.ensureUsersLoop env kenv pw db us st2).usersCreated,
              (Ctrl.ensureUsersLoop env kenv pw db us st2).st,
              (Ctrl.ensureUsersLoop env kenv pw db us st2).err⟩ := by
        simp [Ctrl.ensureUsersLoop, hstep]
      rw [hunf] at hfail
      dsimp only at hfail
      rw [List.map_cons, List.nodup_cons] at hnd
      obtain ⟨hn1, hn2⟩ := hnd
      obtain ⟨pre, u2, post, hsplit, hlst, hnin⟩ := ih st2 e hn2 hfail
      have hu2mem : u2.name ∈ us.map DatabaseUser.name := by
        rw [hsplit]
        simp
      refine ⟨u :: pre, u2, post, by simp [hsplit], ?_, ?_⟩
      · rw [hunf]
        dsimp only
        rw [hlst, List.map_cons]
      · rw [hunf]
        dsimp only
        intro hmem
        rcases List.mem_cons.mp hmem with heq | hmem2
        · exact hn1 (heq ▸ hu2mem)
        · exact hnin hmem2

/-- The service `EnsureUsers` always returns some prefix of the declared
names (on success the whole list; on failure a prefix that, when the
failure is in a grant step, includes the failing user). -/
theorem svcEnsureUsers_take (env : DbEnv) (pw : Nat → String) (dbn : String) :
    ∀ (us : List DatabaseUser) (k : Nat),
      ∃ n, n ≤ us.length ∧
        (UserSvc.EnsureUsers env pw dbn us k).usersCreated
          = (us.map DatabaseUser.name).take n := by
  intro us
  induction us with
  | nil =>
    intro k
    exact ⟨0, Nat.zero_le _, rfl⟩
  | cons u us ih =>
    intro k
    cases herr : (UserSvc.EnsureUser env pw u k).err with
    | some e =>
      exact ⟨0, Nat.zero_le _, by simp [UserSvc.EnsureUsers, herr]⟩
    | none =>
      cases gerr : (UserSvc.GrantPermissions env dbn u).err with
      | some e =>
        refine ⟨1, by simp, ?_⟩
        simp [UserSvc.EnsureUsers, herr, gerr]
      | none =>
        obtain ⟨n, hn, hl⟩ := ih (UserSvc.EnsureUser env pw u k).k
        refine ⟨n + 1, by simpa using Nat.succ_le_succ hn, ?_⟩
        simp [UserSvc.EnsureUsers, herr, gerr, hl]

/-- C1: the claim reads a failure at role i stops provisioning and the
status list holds exactly the fully completed earlier roles, never the
failing role. That is proved here for the inline
`DatabaseReconciler.ensureUsers` (first conjunct: the list is the names of
a proper prefix, the failing user's name absent). The service path only
guarantees a name prefix (second conjunct): `UserService.EnsureUsers`
appends the role name after role creation but BEFORE the grant step, so a
grant failure leaves the failing role's name in the list — the amendment
this theorem proves, with the counterexample exhibiting the inclusion. -/
theorem c1_partial_role_list (env : DbEnv) (kenv : K8sEnv) (pw : Nat → String)
    (db : Database) (st : Ctrl.ProvState) (e : String)
    (hnd : (db.spec.users.map DatabaseUser.name).Nodup)
    (hfail : (Ctrl.ensureUsers env kenv pw db st).err = some e) :
    (∃ pre u post, db.spec.users = pre ++ u :: post ∧
        (Ctrl.ensureUsers env kenv pw db st).usersCreated = pre.map DatabaseUser.name ∧
        u.name ∉ (Ctrl.ensureUsers env kenv pw db st).usersCreated) ∧
    (∃ n, n ≤ db.spec.users.length ∧
        (UserSvc.EnsureUsers env pw db.spec.databaseName db.spec.users 0).usersCreated
          = (db.spec.users.map DatabaseUser.name).take n) :=
  ⟨ctrlEnsureUsersLoop_stops env kenv pw db db.spec.users st e hnd hfail,
    svcEnsureUsers_take env pw db.spec.databaseName db.spec.users 0⟩

/-- C1 witness: one declared role whose grant statement fails. -/
theorem c1_partial_role_list_witness :
    (((⟨"res", "default", ⟨⟨"c", ""⟩, "appdb", [⟨"r1", ["CONNECT"], some false, ""⟩], "", ""⟩⟩
          : Database).spec.users.map DatabaseUser.name).Nodup ∧
      (Ctrl.ensureUsers
          ⟨fun _ => true, fun _ => false, fun q => q == "GRANT CONNECT ON DATABASE appdb TO r1"⟩
          noFailK8s (fun _ => "x")
          ⟨"res", "default", ⟨⟨"c", ""⟩, "appdb", [⟨"r1", ["CONNECT"], some false, ""⟩], "", ""⟩⟩
          ⟨0, [], []⟩).err
        = some "failed to grant permissions to user r1: failed to grant permission CONNECT") ∧
    ((∃ pre u post,
        (⟨"res", "default", ⟨⟨"c", ""⟩, "appdb", [⟨"r1", ["CONNECT"], some false, ""⟩], "", ""⟩⟩
          : Database).spec.users = pre ++ u :: post ∧
        (Ctrl.ensureUsers
            ⟨fun _ => true, fun _ => false, fun q => q == "GRANT CONNECT ON DATABASE appdb TO r1"⟩
            noFailK8s (fun _ => "x")
            ⟨"res", "default", ⟨⟨"c", ""⟩, "appdb", [⟨"r1", ["CONNECT"], some false, ""⟩], "", ""⟩⟩
            ⟨0, [], []⟩).usersCreated = pre.map DatabaseUser.name ∧
        u.name ∉ (Ctrl.ensureUsers
            ⟨fun _ => true, fun _ => false, fun q => q == "GRANT CONNECT ON DATABASE appdb TO r1"⟩
            noFailK8s (fun _ => "x")
            ⟨"res", "default", ⟨⟨"c", ""⟩, "appdb", [⟨"r1", ["CONNECT"], some false, ""⟩], "", ""⟩⟩
            ⟨0, [], []⟩).usersCreated) ∧
      (∃ n, n ≤ (⟨"res", "default",
            ⟨⟨"c", ""⟩, "appdb", [⟨"r1", ["CONNECT"], some false, ""⟩], "", ""⟩⟩
          : Database).spec.users.length ∧
        (UserSvc.EnsureUsers
            ⟨fun _ => true, fun _ => false, fun q => q == "GRANT CONNECT ON DATABASE appdb TO r1"⟩
            (fun _ => "x")
            (⟨"res", "default", ⟨⟨"c", ""⟩, "appdb", [⟨"r1", ["CONNECT"], some false, ""⟩], "", ""⟩⟩
              : Database).spec.databaseName
            (⟨"res", "default", ⟨⟨"c", ""⟩, "appdb", [⟨"r1", ["CONNECT"], some false, ""⟩], "", ""⟩⟩
              : Database).spec.users 0).usersCreated
          = ((⟨"res", "default", ⟨⟨"c", ""⟩, "appdb", [⟨"r1", ["CONNECT"], some false, ""⟩], "", ""⟩⟩
              : Database).spec.users.map DatabaseUser.name).take n)) :=
  ⟨⟨by decide, by decide⟩,
    c1_partial_role_list
      ⟨fun _ => true, fun _ => false, fun q => q == "GRANT CONNECT ON DATABASE appdb TO r1"⟩
      noFailK8s (fun _ => "x")
      ⟨"res", "default", ⟨⟨"c", ""⟩, "appdb", [⟨"r1", ["CONNECT"], some false, ""⟩], "", ""⟩⟩
      ⟨0, [], []⟩ "failed to grant permissions to user r1: failed to grant permission CONNECT"
      (by decide) (by decide)⟩

/-- C1 counterexample: in the service path a grant failure for role `r1`
leaves `r1` in the returned role list, and the status writer stores that
list verbatim — the failing role's name IS in the status list, refuting
the claim. -/
theorem c1_role_list_counterexample :
    (UserSvc.EnsureUsers
        ⟨fun _ => true, fun _ => false, fun q => q == "GRANT CONNECT ON DATABASE appdb TO r1"⟩
        (fun _ => "x") "appdb" [⟨"r1", ["CONNECT"], some false, ""⟩] 0).err.isSome = true ∧
    "r1" ∈ (UserSvc.EnsureUsers
        ⟨fun _ => true, fun _ => false, fun q => q == "GRANT CONNECT ON DATABASE appdb TO r1"⟩
        (fun _ => "x") "appdb" [⟨"r1", ["CONNECT"], some false, ""⟩] 0).usersCreated ∧
    "r1" ∈ (StatusSvc.UpdateDatabaseStatus st0 false false
        (UserSvc.EnsureUsers
          ⟨fun _ => true, fun _ => false, fun q => q == "GRANT CONNECT ON DATABASE appdb TO r1"⟩
          (fun _ => "x") "appdb" [⟨"r1", ["CONNECT"], some false, ""⟩] 0).usersCreated
        "failed" false).1.usersCreated := by
  decide

/-- One `EnsureUser` call advances the stream position by at most one,
and any draw it makes is exactly at the starting position, advancing it. -/
theorem svcEnsureUser_draw (env : DbEnv) (pw : Nat → String) (u : DatabaseUser) (k : Nat) :
    k ≤ (UserSvc.EnsureUser env pw u k).k ∧
    ∀ i ∈ (UserSvc.EnsureUser env pw u k).drawnIdx,
      i = k ∧ (UserSvc.EnsureUser env pw u k).k = k + 1 := by
  unfold UserSvc.EnsureUser
  dsimp only
  repeat' split
  all_goals simp

/-- Along a whole `EnsureUsers` pass starting at position `k`, the stream
position never decreases and every role-creation draw lies in the
interval [k, final position). -/
theorem svcEnsureUsers_draw (env : DbEnv) (pw : Nat → String) (dbn : String) :
    ∀ (us : List DatabaseUser) (k : Nat),
      k ≤ (UserSvc.EnsureUsers env pw dbn us k).k ∧
      ∀ i ∈ (UserSvc.EnsureUsers env pw dbn us k).rolePwIdxs,
        k ≤ i ∧ i < (UserSvc.EnsureUsers env pw dbn us k).k := by
  intro us
  induction us with
  | nil =>
    intro k
    exact ⟨Nat.le_refl k, by simp [UserSvc.EnsureUsers]⟩
  | cons u us ih =>
    intro k
    obtain ⟨hstep, hdraw⟩ := svcEnsureUser_draw env pw u k
    cases herr : (UserSvc.EnsureUser env pw u k).err with
    | some e =>
      refine ⟨by simpa [UserSvc.EnsureUsers, herr] using hstep, ?_⟩
      intro i hi
      simp only [UserSvc.EnsureUsers, herr] at hi ⊢
      rw [Option.mem_toList] at hi
      obtain ⟨hik, hk1⟩ := hdraw i hi
      subst hik
      simp [hk1]
    | none =>
      cases gerr : (UserSvc.GrantPermissions env dbn u).err with
      | some e =>
        refine ⟨by simpa [UserSvc.EnsureUsers, herr, gerr] using hstep, ?_⟩
        intro i hi
        simp only [UserSvc.EnsureUsers, herr, gerr] at hi ⊢
        rw [Option.mem_toList] at hi
        obtain ⟨hik, hk1⟩ := hdraw i hi
        subst hik
        simp [hk1]
      | none =>
        obtain ⟨hrest, hrdraw⟩ := ih (UserSvc.EnsureUser env pw u k).k
        refine ⟨?_, ?_⟩
        · simp only [UserSvc.EnsureUsers, herr, gerr]
          exact Nat.le_trans hstep hrest
        · intro i hi
          simp only [UserSvc.EnsureUsers, herr, gerr] at hi ⊢
          rw [List.mem_append, Option.mem_toList] at hi
          rcases hi with hi | hi
          · obtain ⟨hik, hk1⟩ := hdraw i hi
            subst hik
            refine ⟨Nat.le_refl i, ?_⟩
            calc i < i + 1 := Nat.lt_succ_self i
              _ = (UserSvc.EnsureUser env pw u i).k := hk1.symm
              _ ≤ _ := hrest
          · obtain ⟨h1, h2⟩ := hrdraw i hi
            exact ⟨Nat.le_trans hstep h1, h2⟩

/-- Every secret-password draw of the secret pass lies at or after the
pass's starting stream position. -/
theorem svcSecretLoop_draw (kenv : K8sEnv) (pw : Nat → String) (db : Database) :
    ∀ (us : List DatabaseUser) (k : Nat) (store : SecretStore),
      ∀ j ∈ (Svc.secretLoop kenv pw db us k store).idxs, k ≤ j := by
  intro us
  induction us with
  | nil =>
    intro k store j hj
    simp [Svc.secretLoop] at hj
  | cons u us ih =>
    intro k store j hj
    by_cases hflag : u.createSecret.getD true
    · simp only [Svc.secretLoop, hflag, if_true] at hj
      cases herr : (SecretSvc.CreateUserSecret kenv store db u (pw k)).err with
      | some e =>
        rw [herr] at hj
        simp only [List.mem_singleton] at hj
        exact hj ▸ Nat.le_refl k
      | none =>
        rw [herr] at hj
        simp only [List.mem_cons] at hj
        rcases hj with hj | hj
        · exact hj ▸ Nat.le_refl k
        · exact Nat.le_trans (Nat.le_succ k) (ih (k + 1) _ j hj)
    · simp only [Svc.secretLoop, hflag, if_false] at hj
      exact ih k store j hj

/-- C9: in the service-based reconciler every password drawn for a
`CREATE USER` statement comes from a strictly earlier draw of the random
stream than every password drawn for a credential secret (the whole
`UserService.EnsureUsers` pass runs before the secret pass), so for a
generator with pairwise-distinct outputs the role-creation password is
never the value stored in any secret; the second half evaluates a
one-role run, showing the role statement embeds draw 0 while the secret
stores draw 1. -/
theorem c9_separate_password_draws (env : DbEnv) (kenv : K8sEnv) (pw : Nat → String)
    (db : Database) (store : SecretStore)
    (hinj : ∀ a b, pw a = pw b → a = b) :
    (∀ i ∈ (Svc.ensureUsers env kenv pw db store).rolePwIdxs,
      ∀ j ∈ (Svc.ensureUsers env kenv pw db store).secretPwIdxs, i < j ∧ pw i ≠ pw j) ∧
    ((Svc.ensureUsers noFailDb noFailK8s pw
        ⟨"res", "default", ⟨⟨"c", ""⟩, "appdb", [⟨"u", [], none, ""⟩], "", ""⟩⟩ []).stmts
      = ["CREATE USER " ++ "u" ++ " WITH ENCRYPTED PASSWORD " ++ sqc ++ pw 0 ++ sqc] ∧
      storeFind (Svc.ensureUsers noFailDb noFailK8s pw
          ⟨"res", "default", ⟨⟨"c", ""⟩, "appdb", [⟨"u", [], none, ""⟩], "", ""⟩⟩ []).store
          ("res" ++ "-" ++ "u")
        = some ⟨"u", pw 1⟩ ∧
      pw 1 ≠ pw 0) := by
  refine ⟨?_, ?_, ?_, fun hh => Nat.one_ne_zero (hinj 1 0 hh)⟩
  · intro i hi j hj
    have hmain : i < j := by
      unfold Svc.ensureUsers at hi hj
      dsimp only at hi hj
      cases herr : (UserSvc.EnsureUsers env pw db.spec.databaseName db.spec.users 0).err with
      | some e =>
        simp only [herr] at hi hj
        simp at hj
      | none =>
        simp only [herr] at hi hj
        obtain ⟨-, hup⟩ := svcEnsureUsers_draw env pw db.spec.databaseName db.spec.users 0
        obtain ⟨-, hilt⟩ := hup i hi
        have hjge := svcSecretLoop_draw kenv pw db db.spec.users
          (UserSvc.EnsureUsers env pw db.spec.databaseName db.spec.users 0).k store j hj
        exact Nat.lt_of_lt_of_le hilt hjge
    exact ⟨hmain, fun hpw => Nat.ne_of_lt hmain (hinj i j hpw)⟩
  · simp [Svc.ensureUsers, UserSvc.EnsureUsers, UserSvc.EnsureUser, UserSvc.GrantPermissions,
      UserSvc.grantLoop, Svc.secretLoop, SecretSvc.CreateUserSecret, SecretSvc.secretNameFor,
      noFailDb, noFailK8s, storeFind]
  · simp [Svc.ensureUsers, UserSvc.EnsureUsers, UserSvc.EnsureUser, UserSvc.GrantPermissions,
      UserSvc.grantLoop, Svc.secretLoop, SecretSvc.CreateUserSecret, SecretSvc.secretNameFor,
      noFailDb, noFailK8s, storeFind]

/-- C9 witness: the length-coded generator, injective by construction. -/
theorem c9_separate_password_draws_witness :
    (∀ a b, (fun n => String.mk (List.replicate n 'a')) a
        = (fun n => String.mk (List.replicate n 'a')) b → a = b) ∧
    ((∀ i ∈ (Svc.ensureUsers noFailDb noFailK8s (fun n => String.mk (List.replicate n 'a'))
          ⟨"res", "default", ⟨⟨"c", ""⟩, "appdb", [⟨"u", [], none, ""⟩], "", ""⟩⟩
          []).rolePwIdxs,
        ∀ j ∈ (Svc.ensureUsers noFailDb noFailK8s (fun n => String.mk (List.replicate n 'a'))
          ⟨"res", "default", ⟨⟨"c", ""⟩, "appdb", [⟨"u", [], none, ""⟩], "", ""⟩⟩
          []).secretPwIdxs,
        i < j ∧ (fun n => String.mk (List.replicate n 'a')) i
          ≠ (fun n => String.mk (List.replicate n 'a')) j) ∧
      ((Svc.ensureUsers noFailDb noFailK8s (fun n => String.mk (List.replicate n 'a'))
          ⟨"res", "default", ⟨⟨"c", ""⟩, "appdb", [⟨"u", [], none, ""⟩], "", ""⟩⟩ []).stmts
        = ["CREATE USER " ++ "u" ++ " WITH ENCRYPTED PASSWORD " ++ sqc
            ++ (fun n => String.mk (List.replicate n 'a')) 0 ++ sqc] ∧
        storeFind (Svc.ensureUsers noFailDb noFailK8s (fun n => String.mk (List.replicate n 'a'))
            ⟨"res", "default", ⟨⟨"c", ""⟩, "appdb", [⟨"u", [], none, ""⟩], "", ""⟩⟩ []).store
            ("res" ++ "-" ++ "u")
          = some ⟨"u", (fun n => String.mk (List.replicate n 'a')) 1⟩ ∧
        (fun n => String.mk (List.replicate n 'a')) 1
          ≠ (fun n => String.mk (List.replicate n 'a')) 0)) :=
  ⟨fun a b h => by
      have h2 := congrArg String.length h
      simpa using h2,
    c9_separate_password_draws noFailDb noFailK8s (fun n => String.mk (List.replicate n 'a'))
      ⟨"res", "default", ⟨⟨"c", ""⟩, "appdb", [⟨"u", [], none, ""⟩], "", ""⟩⟩ []
      (fun a b h => by
        have h2 := congrArg String.length h
        simpa using h2)⟩
